import Mathlib

/-!
Verification of the OrderManager event-driven state machine.

Shallow embedding of `src/OrderManager/OrderManager.cpp`.  The C++ classes
`Order` and `OrderManager` become Lean structures; the five `Listener`
event handlers become pure functions from manager state to manager state.
C++ `int` fields are modelled as `Int` (overflow plays no role in the
properties considered), `double`/`long double` as `ℚ`, and the two
`unordered_map`s as functions into `Option`.
-/

/-- The `OrderState` enum of the source. -/
inductive OrderState where
  | NewPending
  | Active
  | Rejected
  | ReplacePending
  | PartiallyFilled
  | Completed
  deriving DecidableEq

/-- The `Order` class: id, side (`'B'` bid / `'O'` offer), price, and the
quantity counters.  All fields public here; the C++ access control is
irrelevant to behavior. -/
structure Order where
  id : Int
  side : Char
  price : ℚ
  totalQuantity : Int
  remainingQuantity : Int
  filledQuantity : Int
  orderState : OrderState
  deriving DecidableEq

/-- The `Order(id, side, price, quantity)` constructor: starts `NewPending`,
remaining = quantity, filled = 0, total = quantity. -/
def Order.new (id : Int) (side : Char) (price : ℚ) (quantity : Int) : Order :=
  { id := id, side := side, price := price, totalQuantity := quantity,
    remainingQuantity := quantity, filledQuantity := 0,
    orderState := OrderState.NewPending }

/-- `Order::replaceOrder(newId, deltaQuantity)`: sets id to `newId` and adds
the delta to both total and remaining quantity. -/
def Order.replaceOrder (o : Order) (newId : Int) (deltaQuantity : Int) : Order :=
  { o with id := newId,
           totalQuantity := o.totalQuantity + deltaQuantity,
           remainingQuantity := o.remainingQuantity + deltaQuantity }

/-- `Order::ChangeOrderState(isPendingOrderUpdate)`: re-derives the state from
the quantity counters unless the order sits in a pending/rejected state and
this is not a pending-resolution update (`&&` binds tighter than `||` in the
C++ condition). -/
def Order.ChangeOrderState (o : Order) (isPendingOrderUpdate : Bool) : Order :=
  if isPendingOrderUpdate = true ∨
      (o.orderState ≠ OrderState.NewPending ∧
       o.orderState ≠ OrderState.ReplacePending ∧
       o.orderState ≠ OrderState.Rejected) then
    if o.filledQuantity = 0 then
      { o with orderState := OrderState.Active }
    else if o.filledQuantity > 0 ∧ o.remainingQuantity > 0 then
      { o with orderState := OrderState.PartiallyFilled }
    else
      { o with orderState := OrderState.Completed }
  else
    o

/-- The `OrderManager` class state: net filled quantity, the two side-indexed
accumulators (`cov`, `pov`, indexed by the boolean `side == 'B'` exactly as
the C++ indexes its two-element arrays), the pending-replace index
`replacePendingOrdersMap : oldId ↦ (newId, deltaQuantity)`, and the order
index `orders`. -/
structure OrderManager where
  nfq : Int
  cov : Bool → ℚ
  pov : Bool → ℚ
  replacePendingOrdersMap : Int → Option (Int × Int)
  orders : Int → Option Order

/-- The freshly constructed manager (all accumulators zero, both maps empty),
as produced by the default construction in `main`. -/
def OrderManager.initial : OrderManager :=
  { nfq := 0, cov := fun _ => 0, pov := fun _ => 0,
    replacePendingOrdersMap := fun _ => none, orders := fun _ => none }

/-- `OrderManager::updateNFQ`: bid fills add, offer fills subtract. -/
def OrderManager.updateNFQ (m : OrderManager) (side : Char) (quantityFilled : Int) :
    OrderManager :=
  if side = 'B' then { m with nfq := m.nfq + quantityFilled }
  else { m with nfq := m.nfq - quantityFilled }

/-- `OrderManager::updateCOV`: `cov[side == 'B'] += value`. -/
def OrderManager.updateCOV (m : OrderManager) (side : Char) (value : ℚ) :
    OrderManager :=
  { m with cov := Function.update m.cov (side == 'B') (m.cov (side == 'B') + value) }

/-- `OrderManager::updatePOV`: `pov[side == 'B'] += value`.  Present in the
source but never called by any handler. -/
def OrderManager.updatePOV (m : OrderManager) (side : Char) (value : ℚ) :
    OrderManager :=
  { m with pov := Function.update m.pov (side == 'B') (m.pov (side == 'B') + value) }

/-- `OrderManager::OnInsertOrderRequest`: create a `NewPending` order under a
fresh id; a duplicate id is an error and mutates nothing. -/
def OrderManager.OnInsertOrderRequest (m : OrderManager) (id : Int) (side : Char)
    (price : ℚ) (quantity : Int) : OrderManager :=
  match m.orders id with
  | none =>
      { m with orders := Function.update m.orders id (some (Order.new id side price quantity)) }
  | some _ => m

/-- `OrderManager::OnReplaceOrderRequest`: if the order exists and is in
neither `NewPending` nor `ReplacePending`, record `(newId, deltaQuantity)` in
the pending index under `oldId`, move the order to `ReplacePending`, and
subtract `remainingQuantity * price` from `cov` for its side.  Otherwise an
error: no mutation. -/
def OrderManager.OnReplaceOrderRequest (m : OrderManager) (oldId : Int) (newId : Int)
    (deltaQuantity : Int) : OrderManager :=
  match m.orders oldId with
  | some o =>
      if o.orderState ≠ OrderState.NewPending ∧ o.orderState ≠ OrderState.ReplacePending then
        OrderManager.updateCOV
          { m with
              replacePendingOrdersMap :=
                Function.update m.replacePendingOrdersMap oldId (some (newId, deltaQuantity)),
              orders :=
                Function.update m.orders oldId
                  (some { o with orderState := OrderState.ReplacePending }) }
          o.side (-((o.remainingQuantity : ℚ) * o.price))
      else m
  | none => m

/-- `OrderManager::OnRequestAcknowledged`.  `NewPending`: force-resolve the
state and add `price * remainingQuantity` to `cov`.  `ReplacePending`: read
the pending record (the C++ dereferences `replacePendingOrdersMap.find(id)`
without a presence check; the `none` branch is undefined behavior in the
source and is modelled as no mutation — see the reachability invariant
showing that branch is never taken), apply the replace, force-resolve, add
`price * remainingQuantity` to `cov`.  The pending record is NOT erased on
this path.  Any other state, or an unknown id: error, no mutation. -/
def OrderManager.OnRequestAcknowledged (m : OrderManager) (id : Int) : OrderManager :=
  match m.orders id with
  | some o =>
      if o.orderState = OrderState.NewPending then
        let o1 := o.ChangeOrderState true
        OrderManager.updateCOV
          { m with orders := Function.update m.orders id (some o1) }
          o1.side (o1.price * (o1.remainingQuantity : ℚ))
      else if o.orderState = OrderState.ReplacePending then
        match m.replacePendingOrdersMap id with
        | some nd =>
            let o1 := (o.replaceOrder nd.1 nd.2).ChangeOrderState true
            OrderManager.updateCOV
              { m with orders := Function.update m.orders id (some o1) }
              o1.side (o1.price * (o1.remainingQuantity : ℚ))
        | none => m
      else m
  | none => m

/-- `OrderManager::OnRequestRejected`.  `NewPending`: zero the remaining
quantity and move to `Rejected`.  `ReplacePending`: erase the pending record,
force-resolve the state from the unchanged quantities, and add
`price * remainingQuantity` back to `cov`.  Any other state, or an unknown
id: error, no mutation. -/
def OrderManager.OnRequestRejected (m : OrderManager) (id : Int) : OrderManager :=
  match m.orders id with
  | some o =>
      if o.orderState = OrderState.NewPending then
        let o1 := { o with remainingQuantity := 0, orderState := OrderState.Rejected }
        { m with orders := Function.update m.orders id (some o1) }
      else if o.orderState = OrderState.ReplacePending then
        let o1 := o.ChangeOrderState true
        OrderManager.updateCOV
          { m with
              replacePendingOrdersMap := Function.update m.replacePendingOrdersMap id none,
              orders := Function.update m.orders id (some o1) }
          o1.side (o1.price * (o1.remainingQuantity : ℚ))
      else m
  | none => m

/-- `OrderManager::OnOrderFilled`: if the order exists and is not `Rejected`,
add the fill to `filledQuantity`, subtract it from `remainingQuantity`,
update `nfq` (signed by side) and `cov` (minus `price * quantityFilled`),
and re-derive the state with `isPendingOrderUpdate = false`.  An unknown id
or a `Rejected` order mutates nothing. -/
def OrderManager.OnOrderFilled (m : OrderManager) (id : Int) (quantityFilled : Int) :
    OrderManager :=
  match m.orders id with
  | some o =>
      if o.orderState ≠ OrderState.Rejected then
        let o1 := { o with filledQuantity := o.filledQuantity + quantityFilled,
                           remainingQuantity := o.remainingQuantity - quantityFilled }
        OrderManager.updateCOV
          (OrderManager.updateNFQ
            { m with orders := Function.update m.orders id (some (o1.ChangeOrderState false)) }
            o.side quantityFilled)
          o.side (-(o.price * (quantityFilled : ℚ)))
      else m
  | none => m

/-- `OrderManager::getNFQ`. -/
def OrderManager.getNFQ (m : OrderManager) : Int := m.nfq

/-- `OrderManager::getCOV`. -/
def OrderManager.getCOV (m : OrderManager) (side : Char) : ℚ := m.cov (side == 'B')

/-- `OrderManager::getPOV`. -/
def OrderManager.getPOV (m : OrderManager) (side : Char) : ℚ := m.pov (side == 'B')

/-- The five events of the `Listener` interface, as a tagged union. -/
inductive Event where
  | insertOrder (id : Int) (side : Char) (price : ℚ) (quantity : Int)
  | replaceOrder (oldId : Int) (newId : Int) (deltaQuantity : Int)
  | requestAcknowledged (id : Int)
  | requestRejected (id : Int)
  | orderFilled (id : Int) (quantityFilled : Int)

/-- Dispatch one event to the corresponding handler. -/
def applyEvent (m : OrderManager) : Event → OrderManager
  | Event.insertOrder id side price quantity => m.OnInsertOrderRequest id side price quantity
  | Event.replaceOrder oldId newId delta => m.OnReplaceOrderRequest oldId newId delta
  | Event.requestAcknowledged id => m.OnRequestAcknowledged id
  | Event.requestRejected id => m.OnRequestRejected id
  | Event.orderFilled id q => m.OnOrderFilled id q

/-- Run a list of events from a given manager state. -/
def runFrom (m : OrderManager) : List Event → OrderManager
  | [] => m
  | e :: es => runFrom (applyEvent m e) es

/-- Run a list of events from the fresh manager. -/
def run (es : List Event) : OrderManager :=
  runFrom OrderManager.initial es

/-- The signed contribution of one event to the net filled quantity: a fill
that is actually applied (the order exists and is not `Rejected`, the exact
guard of `OnOrderFilled`) counts `+quantityFilled` on the bid side and
`-quantityFilled` otherwise; every other event contributes nothing. -/
def signedFillDelta (m : OrderManager) : Event → Int
  | Event.orderFilled id q =>
      match m.orders id with
      | some o =>
          if o.orderState = OrderState.Rejected then 0
          else if o.side = 'B' then q else -q
      | none => 0
  | _ => 0

/-- The signed sum, over an event list run from state `m`, of the quantities
of all fills that were actually applied (bids positive, offers negative). -/
def signedFills : OrderManager → List Event → Int
  | _, [] => 0
  | m, e :: es => signedFillDelta m e + signedFills (applyEvent m e) es

/-- The error guard of each handler, exactly as the source detects it:
duplicate insert id; replace on a missing or pending (`NewPending` /
`ReplacePending`) order; acknowledgment or rejection for a missing or
non-pending order; fill on a missing or `Rejected` order. -/
def eventErrorB (m : OrderManager) : Event → Bool
  | Event.insertOrder id _ _ _ => (m.orders id).isSome
  | Event.replaceOrder oldId _ _ =>
      match m.orders oldId with
      | some o =>
          decide (o.orderState = OrderState.NewPending ∨
                  o.orderState = OrderState.ReplacePending)
      | none => true
  | Event.requestAcknowledged id =>
      match m.orders id with
      | some o =>
          decide (o.orderState ≠ OrderState.NewPending ∧
                  o.orderState ≠ OrderState.ReplacePending)
      | none => true
  | Event.requestRejected id =>
      match m.orders id with
      | some o =>
          decide (o.orderState ≠ OrderState.NewPending ∧
                  o.orderState ≠ OrderState.ReplacePending)
      | none => true
  | Event.orderFilled id _ =>
      match m.orders id with
      | some o => decide (o.orderState = OrderState.Rejected)
      | none => true

/-- Invariant: every order the manager indexes in state `ReplacePending` has
a pending-replace record under the same key, so the unguarded map lookup on
the acknowledgment path never dereferences a missing entry. -/
def PendingIndexInv (m : OrderManager) : Prop :=
  ∀ k o, m.orders k = some o → o.orderState = OrderState.ReplacePending →
    (m.replacePendingOrdersMap k).isSome = true

/-- A concrete non-pending order used to instantiate the replace-cycle
theorems: id 5, bid, price 3, quantity 7, no fills, acknowledged. -/
def covWitnessOrder : Order :=
  { id := 5, side := 'B', price := 3, totalQuantity := 7,
    remainingQuantity := 7, filledQuantity := 0, orderState := OrderState.Active }

/-- A concrete manager holding `covWitnessOrder` under id 5. -/
def covWitnessManager : OrderManager :=
  { nfq := 0, cov := fun _ => 0, pov := fun _ => 0,
    replacePendingOrdersMap := fun _ => none,
    orders := Function.update (fun _ => none) 5 (some covWitnessOrder) }

/-- insert 100 / ack / replace 100→101 / ack: a full replace cycle resolved
by acknowledgment. -/
def replaceAckScenario : List Event :=
  [Event.insertOrder 100 'B' 200 10, Event.requestAcknowledged 100,
   Event.replaceOrder 100 101 2, Event.requestAcknowledged 100]

/-- insert 100 / ack / replace 100→101 / reject: a full replace cycle
resolved by rejection. -/
def replaceRejectScenario : List Event :=
  [Event.insertOrder 100 'B' 200 10, Event.requestAcknowledged 100,
   Event.replaceOrder 100 101 2, Event.requestRejected 100]

/-- The first six events of the scenario driven by the source's `main`:
insert(100,'B',200,10); ack(100); fill(100,5); replace(100,101,+2);
fill(100,5); fill(100,1). -/
def mainScenarioFills : List Event :=
  [Event.insertOrder 100 'B' 200 10, Event.requestAcknowledged 100,
   Event.orderFilled 100 5, Event.replaceOrder 100 101 2,
   Event.orderFilled 100 5, Event.orderFilled 100 1]

/-- The full seven-event scenario of the source's `main`: the six events of
`mainScenarioFills` followed by the final acknowledgment of the replace. -/
def mainScenario : List Event :=
  mainScenarioFills ++ [Event.requestAcknowledged 100]

/-- insert 1 / reject 1: produces a `Rejected` order with zero remaining
quantity and no confirmed-order-value credit. -/
def rejectedScenario : List Event :=
  [Event.insertOrder 1 'B' 10 5, Event.requestRejected 1]

/-- `rejectedScenario` continued by a replace of the rejected order and its
acknowledgment. -/
def rejectedThenReplaceScenario : List Event :=
  rejectedScenario ++ [Event.replaceOrder 1 2 3, Event.requestAcknowledged 1]

lemma Order.ChangeOrderState_side (o : Order) (b : Bool) :
    (o.ChangeOrderState b).side = o.side := by
  unfold Order.ChangeOrderState
  repeat' split
  all_goals rfl

lemma Order.ChangeOrderState_price (o : Order) (b : Bool) :
    (o.ChangeOrderState b).price = o.price := by
  unfold Order.ChangeOrderState
  repeat' split
  all_goals rfl

lemma Order.ChangeOrderState_remainingQuantity (o : Order) (b : Bool) :
    (o.ChangeOrderState b).remainingQuantity = o.remainingQuantity := by
  unfold Order.ChangeOrderState
  repeat' split
  all_goals rfl

lemma Order.ChangeOrderState_id (o : Order) (b : Bool) :
    (o.ChangeOrderState b).id = o.id := by
  unfold Order.ChangeOrderState
  repeat' split
  all_goals rfl

lemma Order.ChangeOrderState_true_resolved (o : Order) :
    (o.ChangeOrderState true).orderState = OrderState.Active ∨
    (o.ChangeOrderState true).orderState = OrderState.PartiallyFilled ∨
    (o.ChangeOrderState true).orderState = OrderState.Completed := by
  unfold Order.ChangeOrderState
  rw [if_pos (Or.inl rfl)]
  repeat' split
  · exact Or.inl rfl
  · exact Or.inr (Or.inl rfl)
  · exact Or.inr (Or.inr rfl)

lemma Order.ChangeOrderState_false_rp (o : Order)
    (h : (o.ChangeOrderState false).orderState = OrderState.ReplacePending) :
    o.orderState = OrderState.ReplacePending := by
  unfold Order.ChangeOrderState at h
  repeat' split at h
  all_goals simp_all

lemma applyEvent_pov (m : OrderManager) (e : Event) : (applyEvent m e).pov = m.pov := by
  cases e with
  | insertOrder id side price q =>
      simp only [applyEvent, OrderManager.OnInsertOrderRequest]
      split <;> rfl
  | replaceOrder oldId newId d =>
      simp only [applyEvent, OrderManager.OnReplaceOrderRequest, OrderManager.updateCOV]
      repeat' split
      all_goals rfl
  | requestAcknowledged id =>
      simp only [applyEvent, OrderManager.OnRequestAcknowledged, OrderManager.updateCOV]
      repeat' split
      all_goals rfl
  | requestRejected id =>
      simp only [applyEvent, OrderManager.OnRequestRejected, OrderManager.updateCOV]
      repeat' split
      all_goals rfl
  | orderFilled id q =>
      simp only [applyEvent, OrderManager.OnOrderFilled, OrderManager.updateCOV,
        OrderManager.updateNFQ]
      repeat' split
      all_goals rfl

lemma applyEvent_nfq (m : OrderManager) (e : Event) :
    (applyEvent m e).nfq = m.nfq + signedFillDelta m e := by
  cases e with
  | insertOrder id side price q =>
      simp only [applyEvent, OrderManager.OnInsertOrderRequest, signedFillDelta]
      split <;> simp
  | replaceOrder oldId newId d =>
      simp only [applyEvent, OrderManager.OnReplaceOrderRequest, signedFillDelta,
        OrderManager.updateCOV]
      repeat' split
      all_goals simp
  | requestAcknowledged id =>
      simp only [applyEvent, OrderManager.OnRequestAcknowledged, signedFillDelta,
        OrderManager.updateCOV]
      repeat' split
      all_goals simp
  | requestRejected id =>
      simp only [applyEvent, OrderManager.OnRequestRejected, signedFillDelta,
        OrderManager.updateCOV]
      repeat' split
      all_goals simp
  | orderFilled id q =>
      simp only [applyEvent, OrderManager.OnOrderFilled, signedFillDelta]
      cases hm : m.orders id with
      | none => simp
      | some o =>
          by_cases hrej : o.orderState = OrderState.Rejected
          · simp [hrej]
          · simp only [ne_eq, hrej, not_false_iff, if_pos, if_neg,
              OrderManager.updateCOV, OrderManager.updateNFQ]
            by_cases hside : o.side = 'B'
            · simp [hside]
            · simp [hside]
              ring

lemma runFrom_nfq (es : List Event) :
    ∀ m : OrderManager, (runFrom m es).nfq = m.nfq + signedFills m es := by
  induction es with
  | nil => intro m; simp [runFrom, signedFills]
  | cons e es ih =>
      intro m
      simp only [runFrom, signedFills, ih (applyEvent m e), applyEvent_nfq]
      ring

lemma runFrom_pov (es : List Event) :
    ∀ m : OrderManager, (runFrom m es).pov = m.pov := by
  induction es with
  | nil => intro m; simp [runFrom]
  | cons e es ih =>
      intro m
      simp only [runFrom, ih (applyEvent m e), applyEvent_pov]

/-- Claim C5: for every event sequence run from a fresh manager, `getNFQ`
equals the signed sum of the quantities of all fills that were actually
applied (bid fills add, offer fills subtract), regardless of the order's
pending state at fill time. -/
theorem C5_nfq_is_signed_fill_sum (es : List Event) :
    (run es).getNFQ = signedFills OrderManager.initial es := by
  simp [run, OrderManager.getNFQ, runFrom_nfq, OrderManager.initial]

/-- Claim C8: no event handler ever populates the pending-order-value
aggregate: after any event sequence run from a fresh manager, `getPOV`
returns 0 for both sides. -/
theorem C8_pov_never_populated (es : List Event) (side : Char) :
    (run es).getPOV side = 0 := by
  simp [run, OrderManager.getPOV, runFrom_pov, OrderManager.initial]

/-- Claim C9: every handler, on every error path the source detects
(duplicate insert id; replace on a missing or pending order; acknowledgment
or rejection of a missing or non-pending order; fill on a missing or
rejected order), returns the manager completely unchanged. -/
theorem C9_error_paths_leave_state_unchanged (m : OrderManager) (e : Event)
    (h : eventErrorB m e = true) : applyEvent m e = m := by
  cases e with
  | insertOrder id side price q =>
      simp only [applyEvent, OrderManager.OnInsertOrderRequest]
      simp only [eventErrorB] at h
      cases hm : m.orders id with
      | none => rw [hm] at h; simp at h
      | some o => simp [hm]
  | replaceOrder oldId newId d =>
      simp only [applyEvent, OrderManager.OnReplaceOrderRequest]
      simp only [eventErrorB] at h
      cases hm : m.orders oldId with
      | none => simp
      | some o =>
          rw [hm] at h
          simp only [decide_eq_true_eq] at h
          simp only []
          rw [if_neg]
          tauto
  | requestAcknowledged id =>
      simp only [applyEvent, OrderManager.OnRequestAcknowledged]
      simp only [eventErrorB] at h
      cases hm : m.orders id with
      | none => simp
      | some o =>
          rw [hm] at h
          simp only [decide_eq_true_eq] at h
          simp [h.1, h.2]
  | requestRejected id =>
      simp only [applyEvent, OrderManager.OnRequestRejected]
      simp only [eventErrorB] at h
      cases hm : m.orders id with
      | none => simp
      | some o =>
          rw [hm] at h
          simp only [decide_eq_true_eq] at h
          simp [h.1, h.2]
  | orderFilled id q =>
      simp only [applyEvent, OrderManager.OnOrderFilled]
      simp only [eventErrorB] at h
      cases hm : m.orders id with
      | none => simp
      | some o =>
          rw [hm] at h
          simp only [decide_eq_true_eq] at h
          simp [h]

/-- Witness for C9: a duplicate insert of id 7 is an error and leaves the
manager unchanged. -/
theorem C9_witness :
    applyEvent (run [Event.insertOrder 7 'B' 2 3]) (Event.insertOrder 7 'O' 1 1)
      = run [Event.insertOrder 7 'B' 2 3] :=
  C9_error_paths_leave_state_unchanged _ _ (by decide)

/-- Claim C1 evaluated on the code: after a replace of order 100 to id 101 is
acknowledged, the pending-replace record for id 100 is still present (the
acknowledgment path never erases it); the rejection path does erase it. -/
theorem C1_ack_path_keeps_pending_record :
    (run replaceAckScenario).replacePendingOrdersMap 100 = some (101, 2) ∧
    (run replaceRejectScenario).replacePendingOrdersMap 100 = none := by
  constructor <;>
    simp +decide [run, runFrom, applyEvent, replaceAckScenario, replaceRejectScenario,
      OrderManager.OnInsertOrderRequest, OrderManager.OnRequestAcknowledged,
      OrderManager.OnOrderFilled, OrderManager.OnReplaceOrderRequest,
      OrderManager.OnRequestRejected, OrderManager.initial, Order.new,
      Order.ChangeOrderState, Order.replaceOrder, OrderManager.updateCOV,
      OrderManager.updateNFQ, Function.update]

/-- Claim C2 evaluated on the code: rejecting the insert of order 1 leaves it
`Rejected` with no confirmed value, yet a later replace request for id 1 is
accepted (the guard only excludes the two pending states) and its
acknowledgment credits `price * (0 + delta) = 10 * 3 = 30` of
confirmed-order-value to that id. -/
theorem C2_credit_added_after_rejection :
    ((run rejectedScenario).orders 1).map Order.orderState = some OrderState.Rejected ∧
    (run rejectedScenario).getCOV 'B' = 0 ∧
    (run rejectedThenReplaceScenario).getCOV 'B' = 30 := by
  refine ⟨?_, ?_, ?_⟩
  · simp +decide [run, runFrom, applyEvent, rejectedScenario,
      OrderManager.OnInsertOrderRequest, OrderManager.OnRequestRejected,
      OrderManager.initial, Order.new, Function.update]
  · simp +decide [run, runFrom, applyEvent, rejectedScenario, OrderManager.getCOV,
      OrderManager.OnInsertOrderRequest, OrderManager.OnRequestRejected,
      OrderManager.initial, Order.new, Function.update]
  · simp +decide [run, runFrom, applyEvent, rejectedScenario, rejectedThenReplaceScenario,
      OrderManager.getCOV, OrderManager.OnInsertOrderRequest,
      OrderManager.OnRequestAcknowledged, OrderManager.OnOrderFilled,
      OrderManager.OnReplaceOrderRequest, OrderManager.OnRequestRejected,
      OrderManager.initial, Order.new, Order.ChangeOrderState, Order.replaceOrder,
      OrderManager.updateCOV, OrderManager.updateNFQ, Function.update]
    norm_num

/-- Claim C7 evaluated on the code: after the replace 100→101 is
acknowledged, the order's own id field is 101, but the manager still indexes
it under 100 and a lookup under 101 finds nothing, so a fill addressed to
the new id is silently dropped. -/
theorem C7_new_id_not_addressable :
    (run replaceAckScenario).orders 101 = none ∧
    ((run replaceAckScenario).orders 100).map Order.id = some 101 ∧
    applyEvent (run replaceAckScenario) (Event.orderFilled 101 4) = run replaceAckScenario := by
  refine ⟨?_, ?_, ?_⟩
  · simp +decide [run, runFrom, applyEvent, replaceAckScenario,
      OrderManager.OnInsertOrderRequest, OrderManager.OnRequestAcknowledged,
      OrderManager.OnOrderFilled, OrderManager.OnReplaceOrderRequest,
      OrderManager.OnRequestRejected, OrderManager.initial, Order.new,
      Order.ChangeOrderState, Order.replaceOrder, OrderManager.updateCOV,
      OrderManager.updateNFQ, Function.update]
  · simp +decide [run, runFrom, applyEvent, replaceAckScenario,
      OrderManager.OnInsertOrderRequest, OrderManager.OnRequestAcknowledged,
      OrderManager.OnOrderFilled, OrderManager.OnReplaceOrderRequest,
      OrderManager.OnRequestRejected, OrderManager.initial, Order.new,
      Order.ChangeOrderState, Order.replaceOrder, OrderManager.updateCOV,
      OrderManager.updateNFQ, Function.update]
  · simp +decide [run, runFrom, applyEvent, replaceAckScenario,
      OrderManager.OnInsertOrderRequest, OrderManager.OnRequestAcknowledged,
      OrderManager.OnOrderFilled, OrderManager.OnReplaceOrderRequest,
      OrderManager.OnRequestRejected, OrderManager.initial, Order.new,
      Order.ChangeOrderState, Order.replaceOrder, OrderManager.updateCOV,
      OrderManager.updateNFQ, Function.update]

/-- Counterexample for C6: after the two fills that follow the replace
request (six events in), order 100's remaining quantity is -1, not the 1 the
claim states: the +2 delta is applied only at the final acknowledgment. -/
theorem C6_counterexample_remaining_after_fills :
    ((run mainScenarioFills).orders 100).map Order.remainingQuantity = some (-1) ∧
    ((run mainScenarioFills).orders 100).map Order.remainingQuantity ≠ some 1 := by
  have h : ((run mainScenarioFills).orders 100).map Order.remainingQuantity = some (-1) := by
    simp +decide [run, runFrom, applyEvent, mainScenarioFills,
      OrderManager.OnInsertOrderRequest, OrderManager.OnRequestAcknowledged,
      OrderManager.OnOrderFilled, OrderManager.OnReplaceOrderRequest,
      OrderManager.OnRequestRejected, OrderManager.initial, Order.new,
      Order.ChangeOrderState, Order.replaceOrder, OrderManager.updateCOV,
      OrderManager.updateNFQ, Function.update]
  exact ⟨h, by rw [h]; decide⟩

/-- Claim C6 as amended: the `main` scenario of the source produces, step by
step: state `PartiallyFilled` and `getCOV 'B' = 1000` after the first fill;
`getCOV 'B' = 0` after the replace request; remaining quantity -1 (not 1) and
`getNFQ = 11` after the two further fills; and at the final acknowledgment
the replace applies: the order's id becomes 101, its remaining quantity
becomes 1, and `getCOV 'B'` increases by `200 * 1 = 200` (from -1200 to
-1000). -/
theorem C6_main_scenario_amended :
    (((run [Event.insertOrder 100 'B' 200 10, Event.requestAcknowledged 100,
        Event.orderFilled 100 5]).orders 100).map Order.orderState
      = some OrderState.PartiallyFilled) ∧
    (run [Event.insertOrder 100 'B' 200 10, Event.requestAcknowledged 100,
        Event.orderFilled 100 5]).getCOV 'B' = 1000 ∧
    (run [Event.insertOrder 100 'B' 200 10, Event.requestAcknowledged 100,
        Event.orderFilled 100 5, Event.replaceOrder 100 101 2]).getCOV 'B' = 0 ∧
    ((run mainScenarioFills).orders 100).map Order.remainingQuantity = some (-1) ∧
    (run mainScenarioFills).getNFQ = 11 ∧
    ((run mainScenario).orders 100).map Order.id = some 101 ∧
    ((run mainScenario).orders 100).map Order.remainingQuantity = some 1 ∧
    (run mainScenarioFills).getCOV 'B' = -1200 ∧
    (run mainScenario).getCOV 'B' = -1200 + 200 * 1 := by
  refine ⟨?_, ?_, ?_, ?_, ?_, ?_, ?_, ?_, ?_⟩ <;>
    (simp +decide [run, runFrom, applyEvent, mainScenario, mainScenarioFills,
      OrderManager.getCOV, OrderManager.getNFQ, OrderManager.OnInsertOrderRequest,
      OrderManager.OnRequestAcknowledged, OrderManager.OnOrderFilled,
      OrderManager.OnReplaceOrderRequest, OrderManager.OnRequestRejected,
      OrderManager.initial, Order.new, Order.ChangeOrderState, Order.replaceOrder,
      OrderManager.updateCOV, OrderManager.updateNFQ, Function.update]) <;>
    norm_num

lemma OnReplaceOrderRequest_accepted (m : OrderManager) (oldId newId d : Int) (o : Order)
    (ho : m.orders oldId = some o)
    (h1 : o.orderState ≠ OrderState.NewPending)
    (h2 : o.orderState ≠ OrderState.ReplacePending) :
    m.OnReplaceOrderRequest oldId newId d
      = OrderManager.updateCOV
          { m with
              replacePendingOrdersMap :=
                Function.update m.replacePendingOrdersMap oldId (some (newId, d)),
              orders :=
                Function.update m.orders oldId
                  (some { o with orderState := OrderState.ReplacePending }) }
          o.side (-((o.remainingQuantity : ℚ) * o.price)) := by
  simp only [OrderManager.OnReplaceOrderRequest, ho]
  rw [if_pos ⟨h1, h2⟩]

lemma Order.replaceOrder_side (o : Order) (n d : Int) : (o.replaceOrder n d).side = o.side := rfl

lemma Order.replaceOrder_price (o : Order) (n d : Int) : (o.replaceOrder n d).price = o.price := rfl

lemma Order.replaceOrder_remainingQuantity (o : Order) (n d : Int) :
    (o.replaceOrder n d).remainingQuantity = o.remainingQuantity + d := rfl

lemma OnRequestAcknowledged_replacePending (m : OrderManager) (id : Int) (o : Order)
    (ho : m.orders id = some o) (hrp : o.orderState = OrderState.ReplacePending)
    (nd : Int × Int) (hnd : m.replacePendingOrdersMap id = some nd) :
    m.OnRequestAcknowledged id
      = OrderManager.updateCOV
          { m with orders := Function.update m.orders id (some ((o.replaceOrder nd.1 nd.2).ChangeOrderState true)) }
          ((o.replaceOrder nd.1 nd.2).ChangeOrderState true).side
          (((o.replaceOrder nd.1 nd.2).ChangeOrderState true).price *
            ((((o.replaceOrder nd.1 nd.2).ChangeOrderState true).remainingQuantity : Int) : ℚ)) := by
  simp only [OrderManager.OnRequestAcknowledged, ho, hrp, hnd]
  simp

lemma OnRequestRejected_replacePending (m : OrderManager) (id : Int) (o : Order)
    (ho : m.orders id = some o) (hrp : o.orderState = OrderState.ReplacePending) :
    m.OnRequestRejected id
      = OrderManager.updateCOV
          { m with
              replacePendingOrdersMap := Function.update m.replacePendingOrdersMap id none,
              orders := Function.update m.orders id (some (o.ChangeOrderState true)) }
          (o.ChangeOrderState true).side
          ((o.ChangeOrderState true).price *
            (((o.ChangeOrderState true).remainingQuantity : Int) : ℚ)) := by
  simp only [OrderManager.OnRequestRejected, ho, hrp]
  simp

/-- Claim C3: for an order in a non-pending state with price P, side S and
remaining quantity R, a replace request of delta D subtracts `R * P` from
`getCOV S`, and the matching acknowledgment adds back `P * (R + D)`, for a
net gain of exactly `P * D` over the value before the request. -/
theorem C3_replace_then_ack_adds_delta_value (m : OrderManager) (oldId newId d : Int)
    (o : Order) (ho : m.orders oldId = some o)
    (h1 : o.orderState ≠ OrderState.NewPending)
    (h2 : o.orderState ≠ OrderState.ReplacePending) :
    (m.OnReplaceOrderRequest oldId newId d).getCOV o.side
        = m.getCOV o.side - (o.remainingQuantity : ℚ) * o.price ∧
    ((m.OnReplaceOrderRequest oldId newId d).OnRequestAcknowledged oldId).getCOV o.side
        = (m.OnReplaceOrderRequest oldId newId d).getCOV o.side
            + o.price * ((o.remainingQuantity : ℚ) + (d : ℚ)) ∧
    ((m.OnReplaceOrderRequest oldId newId d).OnRequestAcknowledged oldId).getCOV o.side
        = m.getCOV o.side + o.price * (d : ℚ) := by
  have hreq := OnReplaceOrderRequest_accepted m oldId newId d o ho h1 h2
  have hmo : (m.OnReplaceOrderRequest oldId newId d).orders oldId
      = some { o with orderState := OrderState.ReplacePending } := by
    rw [hreq]; simp [OrderManager.updateCOV, Function.update_same]
  have hnd : (m.OnReplaceOrderRequest oldId newId d).replacePendingOrdersMap oldId
      = some (newId, d) := by
    rw [hreq]; simp [OrderManager.updateCOV, Function.update_same]
  have hack := OnRequestAcknowledged_replacePending _ oldId _ hmo rfl (newId, d) hnd
  have hcov1 : (m.OnReplaceOrderRequest oldId newId d).getCOV o.side
      = m.getCOV o.side - (o.remainingQuantity : ℚ) * o.price := by
    rw [hreq]
    simp [OrderManager.getCOV, OrderManager.updateCOV, Function.update_same]
    ring
  have hcov2 : ((m.OnReplaceOrderRequest oldId newId d).OnRequestAcknowledged oldId).getCOV o.side
      = (m.OnReplaceOrderRequest oldId newId d).getCOV o.side
          + o.price * ((o.remainingQuantity : ℚ) + (d : ℚ)) := by
    rw [hack]
    simp [OrderManager.getCOV, OrderManager.updateCOV, Function.update_same,
      Order.ChangeOrderState_side, Order.ChangeOrderState_price,
      Order.ChangeOrderState_remainingQuantity, Order.replaceOrder_side,
      Order.replaceOrder_price, Order.replaceOrder_remainingQuantity]
  exact ⟨hcov1, hcov2, by rw [hcov2, hcov1]; ring⟩

/-- Witness for C3: the cycle replace(5→6, +2) then ack on a live order of
price 3 and remaining quantity 7 moves `getCOV` by -21 then +27, a net +6. -/
theorem C3_witness_concrete :
    (covWitnessManager.OnReplaceOrderRequest 5 6 2).getCOV covWitnessOrder.side
        = covWitnessManager.getCOV covWitnessOrder.side
            - (covWitnessOrder.remainingQuantity : ℚ) * covWitnessOrder.price ∧
    ((covWitnessManager.OnReplaceOrderRequest 5 6 2).OnRequestAcknowledged 5).getCOV
        covWitnessOrder.side
        = (covWitnessManager.OnReplaceOrderRequest 5 6 2).getCOV covWitnessOrder.side
            + covWitnessOrder.price * ((covWitnessOrder.remainingQuantity : ℚ) + ((2 : Int) : ℚ)) ∧
    ((covWitnessManager.OnReplaceOrderRequest 5 6 2).OnRequestAcknowledged 5).getCOV
        covWitnessOrder.side
        = covWitnessManager.getCOV covWitnessOrder.side + covWitnessOrder.price * ((2 : Int) : ℚ) :=
  C3_replace_then_ack_adds_delta_value covWitnessManager 5 6 2 covWitnessOrder rfl
    (by decide) (by decide)

/-- Claim C4: for an order in a non-pending state with price P and remaining
quantity R, a replace request subtracts `R * P` from `getCOV` for its side
and the matching rejection adds `P * R` back, so the full cycle is a no-op
on `getCOV`. -/
theorem C4_replace_then_reject_noop_on_cov (m : OrderManager) (oldId newId d : Int)
    (o : Order) (ho : m.orders oldId = some o)
    (h1 : o.orderState ≠ OrderState.NewPending)
    (h2 : o.orderState ≠ OrderState.ReplacePending) :
    (m.OnReplaceOrderRequest oldId newId d).getCOV o.side
        = m.getCOV o.side - (o.remainingQuantity : ℚ) * o.price ∧
    ((m.OnReplaceOrderRequest oldId newId d).OnRequestRejected oldId).getCOV o.side
        = (m.OnReplaceOrderRequest oldId newId d).getCOV o.side
            + o.price * (o.remainingQuantity : ℚ) ∧
    ((m.OnReplaceOrderRequest oldId newId d).OnRequestRejected oldId).getCOV o.side
        = m.getCOV o.side := by
  have hreq := OnReplaceOrderRequest_accepted m oldId newId d o ho h1 h2
  have hmo : (m.OnReplaceOrderRequest oldId newId d).orders oldId
      = some { o with orderState := OrderState.ReplacePending } := by
    rw [hreq]; simp [OrderManager.updateCOV, Function.update_same]
  have hrej := OnRequestRejected_replacePending _ oldId _ hmo rfl
  have hcov1 : (m.OnReplaceOrderRequest oldId newId d).getCOV o.side
      = m.getCOV o.side - (o.remainingQuantity : ℚ) * o.price := by
    rw [hreq]
    simp [OrderManager.getCOV, OrderManager.updateCOV, Function.update_same]
    ring
  have hcov2 : ((m.OnReplaceOrderRequest oldId newId d).OnRequestRejected oldId).getCOV o.side
      = (m.OnReplaceOrderRequest oldId newId d).getCOV o.side
          + o.price * (o.remainingQuantity : ℚ) := by
    rw [hrej]
    simp [OrderManager.getCOV, OrderManager.updateCOV, Function.update_same,
      Order.ChangeOrderState_side, Order.ChangeOrderState_price,
      Order.ChangeOrderState_remainingQuantity]
  exact ⟨hcov1, hcov2, by rw [hcov2, hcov1]; ring⟩

/-- Witness for C4: the cycle replace(5→6, +2) then reject on a live order of
price 3 and remaining quantity 7 moves `getCOV` by -21 then +21, a net 0. -/
theorem C4_witness_concrete :
    (covWitnessManager.OnReplaceOrderRequest 5 6 2).getCOV covWitnessOrder.side
        = covWitnessManager.getCOV covWitnessOrder.side
            - (covWitnessOrder.remainingQuantity : ℚ) * covWitnessOrder.price ∧
    ((covWitnessManager.OnReplaceOrderRequest 5 6 2).OnRequestRejected 5).getCOV
        covWitnessOrder.side
        = (covWitnessManager.OnReplaceOrderRequest 5 6 2).getCOV covWitnessOrder.side
            + covWitnessOrder.price * (covWitnessOrder.remainingQuantity : ℚ) ∧
    ((covWitnessManager.OnReplaceOrderRequest 5 6 2).OnRequestRejected 5).getCOV
        covWitnessOrder.side
        = covWitnessManager.getCOV covWitnessOrder.side :=
  C4_replace_then_reject_noop_on_cov covWitnessManager 5 6 2 covWitnessOrder rfl
    (by decide) (by decide)

lemma Order.ChangeOrderState_true_ne_rp (o : Order) :
    (o.ChangeOrderState true).orderState ≠ OrderState.ReplacePending := by
  rcases Order.ChangeOrderState_true_resolved o with h | h | h <;> simp [h]

lemma OrderManager.updateCOV_orders (m : OrderManager) (s : Char) (v : ℚ) :
    (m.updateCOV s v).orders = m.orders := rfl

lemma OrderManager.updateCOV_rpom (m : OrderManager) (s : Char) (v : ℚ) :
    (m.updateCOV s v).replacePendingOrdersMap = m.replacePendingOrdersMap := rfl

lemma OrderManager.updateNFQ_orders (m : OrderManager) (s : Char) (q : Int) :
    (m.updateNFQ s q).orders = m.orders := by
  unfold OrderManager.updateNFQ
  split <;> rfl

lemma OrderManager.updateNFQ_rpom (m : OrderManager) (s : Char) (q : Int) :
    (m.updateNFQ s q).replacePendingOrdersMap = m.replacePendingOrdersMap := by
  unfold OrderManager.updateNFQ
  split <;> rfl

lemma pendingIndexInv_applyEvent (m : OrderManager) (e : Event)
    (h : PendingIndexInv m) : PendingIndexInv (applyEvent m e) := by
  cases e with
  | insertOrder id side price q =>
      cases hm : m.orders id with
      | some o0 => simpa [applyEvent, OrderManager.OnInsertOrderRequest, hm] using h
      | none =>
          intro k o hk hrp
          simp only [applyEvent, OrderManager.OnInsertOrderRequest, hm] at hk ⊢
          by_cases hkid : k = id
          · subst hkid
            rw [Function.update_same] at hk
            cases hk
            simp [Order.new] at hrp
          · rw [Function.update_noteq hkid] at hk
            exact h k o hk hrp
  | replaceOrder oldId newId d =>
      cases hm : m.orders oldId with
      | none => simpa [applyEvent, OrderManager.OnReplaceOrderRequest, hm] using h
      | some o0 =>
          by_cases hst : o0.orderState ≠ OrderState.NewPending ∧
              o0.orderState ≠ OrderState.ReplacePending
          · intro k o hk hrp
            simp only [applyEvent, OrderManager.OnReplaceOrderRequest, hm, if_pos hst,
              OrderManager.updateCOV_orders, OrderManager.updateCOV_rpom] at hk ⊢
            by_cases hkid : k = oldId
            · subst hkid
              rw [Function.update_same]
              rfl
            · rw [Function.update_noteq hkid] at hk
              rw [Function.update_noteq hkid]
              exact h k o hk hrp
          · simpa [applyEvent, OrderManager.OnReplaceOrderRequest, hm, if_neg hst] using h
  | requestAcknowledged id =>
      cases hm : m.orders id with
      | none => simpa [applyEvent, OrderManager.OnRequestAcknowledged, hm] using h
      | some o0 =>
          by_cases hnp : o0.orderState = OrderState.NewPending
          · intro k o hk hrp
            simp only [applyEvent, OrderManager.OnRequestAcknowledged, hm, if_pos hnp,
              OrderManager.updateCOV_orders, OrderManager.updateCOV_rpom] at hk ⊢
            by_cases hkid : k = id
            · subst hkid
              rw [Function.update_same] at hk
              cases hk
              exact absurd hrp (Order.ChangeOrderState_true_ne_rp o0)
            · rw [Function.update_noteq hkid] at hk
              exact h k o hk hrp
          · by_cases hrp0 : o0.orderState = OrderState.ReplacePending
            · cases hnd : m.replacePendingOrdersMap id with
              | none =>
                  simpa [applyEvent, OrderManager.OnRequestAcknowledged, hm, hnp, hrp0, hnd]
                    using h
              | some nd =>
                  intro k o hk hrp
                  simp only [applyEvent, OrderManager.OnRequestAcknowledged, hm, if_neg hnp,
                    if_pos hrp0, hnd, OrderManager.updateCOV_orders,
                    OrderManager.updateCOV_rpom] at hk ⊢
                  by_cases hkid : k = id
                  · subst hkid
                    rw [Function.update_same] at hk
                    cases hk
                    exact absurd hrp (Order.ChangeOrderState_true_ne_rp _)
                  · rw [Function.update_noteq hkid] at hk
                    exact h k o hk hrp
            · simpa [applyEvent, OrderManager.OnRequestAcknowledged, hm, hnp, hrp0] using h
  | requestRejected id =>
      cases hm : m.orders id with
      | none => simpa [applyEvent, OrderManager.OnRequestRejected, hm] using h
      | some o0 =>
          by_cases hnp : o0.orderState = OrderState.NewPending
          · intro k o hk hrp
            simp only [applyEvent, OrderManager.OnRequestRejected, hm, if_pos hnp] at hk ⊢
            by_cases hkid : k = id
            · subst hkid
              rw [Function.update_same] at hk
              cases hk
              simp at hrp
            · rw [Function.update_noteq hkid] at hk
              exact h k o hk hrp
          · by_cases hrp0 : o0.orderState = OrderState.ReplacePending
            · intro k o hk hrp
              simp only [applyEvent, OrderManager.OnRequestRejected, hm, if_neg hnp,
                if_pos hrp0, OrderManager.updateCOV_orders,
                OrderManager.updateCOV_rpom] at hk ⊢
              by_cases hkid : k = id
              · subst hkid
                rw [Function.update_same] at hk
                cases hk
                exact absurd hrp (Order.ChangeOrderState_true_ne_rp _)
              · rw [Function.update_noteq hkid] at hk
                rw [Function.update_noteq hkid]
                exact h k o hk hrp
            · simpa [applyEvent, OrderManager.OnRequestRejected, hm, hnp, hrp0] using h
  | orderFilled id q =>
      cases hm : m.orders id with
      | none => simpa [applyEvent, OrderManager.OnOrderFilled, hm] using h
      | some o0 =>
          by_cases hrej : o0.orderState ≠ OrderState.Rejected
          · intro k o hk hrp
            simp only [applyEvent, OrderManager.OnOrderFilled, hm, if_pos hrej,
              OrderManager.updateCOV_orders, OrderManager.updateCOV_rpom,
              OrderManager.updateNFQ_orders, OrderManager.updateNFQ_rpom] at hk ⊢
            by_cases hkid : k = id
            · subst hkid
              rw [Function.update_same] at hk
              cases hk
              have hst := Order.ChangeOrderState_false_rp _ hrp
              exact h _ o0 hm hst
            · rw [Function.update_noteq hkid] at hk
              exact h k o hk hrp
          · simpa [applyEvent, OrderManager.OnOrderFilled, hm, if_neg hrej] using h

lemma runFrom_pendingIndexInv (es : List Event) :
    ∀ m : OrderManager, PendingIndexInv m → PendingIndexInv (runFrom m es) := by
  induction es with
  | nil => intro m h; simpa [runFrom] using h
  | cons e es ih =>
      intro m h
      exact ih (applyEvent m e) (pendingIndexInv_applyEvent m e h)

/-- Claim C10: in every reachable manager state, an order indexed in state
`ReplacePending` has a pending-replace record under the id by which the
order map indexes it, so the unguarded lookup on the `ReplacePending` branch
of `OnRequestAcknowledged` never dereferences a missing entry. -/
theorem C10_replacePending_has_pending_record (es : List Event) (k : Int) (o : Order)
    (ho : (run es).orders k = some o)
    (hrp : o.orderState = OrderState.ReplacePending) :
    ((run es).replacePendingOrdersMap k).isSome = true := by
  have hinit : PendingIndexInv OrderManager.initial := by
    intro k o hk hrp
    simp [OrderManager.initial] at hk
  exact runFrom_pendingIndexInv es OrderManager.initial hinit k o ho hrp

/-- Witness for C10: after insert/ack/replace of order 100, that order is in
`ReplacePending` and the pending index holds a record under 100. -/
theorem C10_witness_concrete :
    ((run [Event.insertOrder 100 'B' 200 10, Event.requestAcknowledged 100,
        Event.replaceOrder 100 101 2]).replacePendingOrdersMap 100).isSome = true :=
  C10_replacePending_has_pending_record _ 100
    { id := 100, side := 'B', price := 200, totalQuantity := 10,
      remainingQuantity := 10, filledQuantity := 0,
      orderState := OrderState.ReplacePending }
    rfl rfl
